import Mathlib

/-!
Verification of the multi-scale colored-ICP registration pipeline of the
cupoch repository, as demonstrated by
`examples/python/advanced/colored_pointcloud_registration.py`.

The demonstration script is the only source file available; the library
routines it calls (`voxel_down_sample`, `estimate_normals`,
`registration_icp`, `registration_colored_icp`) live elsewhere in the
repository, so their behaviour is modelled from the design document.
Machine reals are embedded as `ℚ`; operations whose result is irrational
(square roots inside RMSE, normal re-normalisation) are abstracted as
function parameters, which no claim below depends on.
-/

namespace Cupoch

/-- A 3-vector of rational coordinates, standing for a point position,
a normal or an RGB colour. -/
structure Vec3 where
  x : ℚ
  y : ℚ
  z : ℚ
deriving DecidableEq, Repr

namespace Vec3

def sub (a b : Vec3) : Vec3 := ⟨a.x - b.x, a.y - b.y, a.z - b.z⟩

def dot (a b : Vec3) : ℚ := a.x * b.x + a.y * b.y + a.z * b.z

def cross (a b : Vec3) : Vec3 :=
  ⟨a.y * b.z - a.z * b.y, a.z * b.x - a.x * b.z, a.x * b.y - a.y * b.x⟩

end Vec3

/-- Modelled from the spec: a point cloud owns point positions, optional
normals and optional colours; an attribute is absent when its list is
empty (the data-model invariant asks that a present attribute has one
entry per point). -/
structure PointCloud where
  points : List Vec3
  normals : List Vec3
  colors : List Vec3
deriving DecidableEq, Repr

/-- A 4×4 homogeneous transformation matrix over the rational embedding. -/
abbrev Mat4 := Matrix (Fin 4) (Fin 4) ℚ

/-- Apply the affine part of a homogeneous matrix to a position. -/
def affineApply (T : Mat4) (p : Vec3) : Vec3 :=
  ⟨T 0 0 * p.x + T 0 1 * p.y + T 0 2 * p.z + T 0 3,
   T 1 0 * p.x + T 1 1 * p.y + T 1 2 * p.z + T 1 3,
   T 2 0 * p.x + T 2 1 * p.y + T 2 2 * p.z + T 2 3⟩

/-- Apply only the rotation block to a direction (used for normals). -/
def rotApply (T : Mat4) (n : Vec3) : Vec3 :=
  ⟨T 0 0 * n.x + T 0 1 * n.y + T 0 2 * n.z,
   T 1 0 * n.x + T 1 1 * n.y + T 1 2 * n.z,
   T 2 0 * n.x + T 2 1 * n.y + T 2 2 * n.z⟩

/-- `PointCloud.transform`: positions move affinely, normals rotate,
colours are untouched (mirrors `cupoch`'s `PointCloud::Transform`). -/
def transformCloud (c : PointCloud) (T : Mat4) : PointCloud :=
  ⟨c.points.map (affineApply T), c.normals.map (rotApply T), c.colors⟩

/-- Modelled from the spec: the error kinds of section 7.  `MissingNormals`
of section 4.5 is the same failure as `MissingAttribute` of the error
table. -/
inductive RegError
  | invalidArgument
  | missingAttribute
  | noCorrespondences
deriving DecidableEq, Repr

/-! ### Voxel downsampling (library routine, modelled from the spec) -/

/-- Modelled from the spec: the axis-aligned cube of edge `v` containing a
point, identified by the integer floor of each scaled coordinate. -/
def voxelIdx (v : ℚ) (p : Vec3) : ℤ × ℤ × ℤ :=
  (⌊p.x / v⌋, ⌊p.y / v⌋, ⌊p.z / v⌋)

/-- Arithmetic mean of a list of vectors, coordinatewise. -/
def centroid (pts : List Vec3) : Vec3 :=
  ⟨(pts.map Vec3.x).sum / (pts.length : ℚ),
   (pts.map Vec3.y).sum / (pts.length : ℚ),
   (pts.map Vec3.z).sum / (pts.length : ℚ)⟩

/-- The distinct non-empty voxel cubes met by a list of points, in first-hit
order. -/
def voxelBins (v : ℚ) (pts : List Vec3) : List (ℤ × ℤ × ℤ) :=
  (pts.map (voxelIdx v)).dedup

/-- The points of a cloud falling in one voxel cube. -/
def voxelMembers (v : ℚ) (pts : List Vec3) (b : ℤ × ℤ × ℤ) : List Vec3 :=
  pts.filter (fun p => voxelIdx v p == b)

/-- Modelled from the spec: each non-empty voxel cube maps to one output
point whose position is the arithmetic mean of the contained points'
positions; colours are averaged likewise.  Normals would additionally be
re-normalised to unit length, an irrational scaling that the rational
embedding records as the plain mean. -/
def voxelDownSampleCore (c : PointCloud) (v : ℚ) : PointCloud :=
  { points := (voxelBins v c.points).map (fun b => centroid (voxelMembers v c.points b)),
    normals :=
      if c.normals.length = c.points.length then
        (voxelBins v c.points).map (fun b =>
          centroid ((c.points.zip c.normals).filterMap
            (fun pn => if voxelIdx v pn.1 == b then some pn.2 else none)))
      else [],
    colors :=
      if c.colors.length = c.points.length then
        (voxelBins v c.points).map (fun b =>
          centroid ((c.points.zip c.colors).filterMap
            (fun pc => if voxelIdx v pc.1 == b then some pc.2 else none)))
      else [] }

/-- Modelled from the spec: `downsample(cloud, voxelSize)` fails with
`InvalidArgument` if `voxelSize <= 0`, otherwise bins and averages. -/
def voxelDownSample (c : PointCloud) (v : ℚ) : Except RegError PointCloud :=
  if v ≤ 0 then Except.error RegError.invalidArgument
  else Except.ok (voxelDownSampleCore c v)

/-- `q` lies within the axis-aligned bounding box of the points `pts`:
on every coordinate it is bracketed by attained values. -/
def inBoundingBox (q : Vec3) (pts : List Vec3) : Prop :=
  (∃ p ∈ pts, p.x ≤ q.x) ∧ (∃ p ∈ pts, q.x ≤ p.x) ∧
  (∃ p ∈ pts, p.y ≤ q.y) ∧ (∃ p ∈ pts, q.y ≤ p.y) ∧
  (∃ p ∈ pts, p.z ≤ q.z) ∧ (∃ p ∈ pts, q.z ≤ p.z)

/-! ### A small heap of cloud objects, to state frame effects

The Python bindings pass clouds by reference and some methods mutate in
place (`transform`, `estimate_normals`); `copy.deepcopy` allocates a fresh
object.  A heap is a list of clouds, a reference an index into it. -/

/-- `copy.deepcopy`: allocate a fresh copy of the cloud at `r`, returning
the heap and the new reference. -/
def deepcopyProc (hp : List PointCloud) (r : ℕ) : List PointCloud × ℕ :=
  (hp ++ [hp.getD r ⟨[], [], []⟩], hp.length)

/-- In-place `transform` on the cloud at `r`. -/
def transformProc (hp : List PointCloud) (r : ℕ) (T : Mat4) : List PointCloud :=
  hp.set r (transformCloud (hp.getD r ⟨[], [], []⟩) T)

/-- `draw_registration_result_original_color(source, target, transformation)`
from the script: deep-copy the source, transform the copy in place, hand
the copy and the target to the renderer.  Returns the final heap and the
references handed to `draw_geometries`. -/
def drawRegistrationResultOriginalColor (hp : List PointCloud) (src tgt : ℕ)
    (T : Mat4) : List PointCloud × List ℕ :=
  ((transformProc (deepcopyProc hp src).1 (deepcopyProc hp src).2 T),
   [(deepcopyProc hp src).2, tgt])

/-- `voxel_down_sample` called through a reference: on success the result
is a freshly allocated cloud; the heap's existing cells are never written. -/
def voxelDownSampleProc (hp : List PointCloud) (r : ℕ) (v : ℚ) :
    List PointCloud × Except RegError ℕ :=
  match voxelDownSample (hp.getD r ⟨[], [], []⟩) v with
  | Except.error e => (hp, Except.error e)
  | Except.ok out => (hp ++ [out], Except.ok hp.length)

/-! ### Transformation estimators (library routines, modelled from the spec) -/

/-- Modelled from the spec: a correspondence is a pair of indices plus the
associated squared distance. -/
structure Corr where
  sourceIndex : ℕ
  targetIndex : ℕ
  sqDist : ℚ
deriving DecidableEq, Repr

def getPoint (c : PointCloud) (i : ℕ) : Vec3 := c.points.getD i ⟨0, 0, 0⟩

def getNormal (c : PointCloud) (i : ℕ) : Vec3 := c.normals.getD i ⟨0, 0, 0⟩

/-- A linearised residual row: the Jacobian with respect to the six
parameters (rotation vector, then translation) and the residual value. -/
abbrev ResRow := (Fin 6 → ℚ) × ℚ

/-- Modelled from the spec: the linearised point-to-plane row of one
correspondence — Jacobian `(s × n, n)` under the small-angle
approximation and residual `(s - t)·n`. -/
def p2plRow (src tgt : PointCloud) (c : Corr) : ResRow :=
  (fun j =>
     ![ (Vec3.cross (getPoint src c.sourceIndex) (getNormal tgt c.targetIndex)).x,
        (Vec3.cross (getPoint src c.sourceIndex) (getNormal tgt c.targetIndex)).y,
        (Vec3.cross (getPoint src c.sourceIndex) (getNormal tgt c.targetIndex)).z,
        (getNormal tgt c.targetIndex).x,
        (getNormal tgt c.targetIndex).y,
        (getNormal tgt c.targetIndex).z ] j,
   Vec3.dot (Vec3.sub (getPoint src c.sourceIndex) (getPoint tgt c.targetIndex))
     (getNormal tgt c.targetIndex))

/-- The 6×6 normal-equations matrix `Jᵀ J` accumulated over rows. -/
def sysA (rows : List ResRow) : Fin 6 → Fin 6 → ℚ :=
  fun i j => (rows.map (fun row => row.1 i * row.1 j)).sum

/-- The right-hand side `Jᵀ r` accumulated over rows. -/
def sysB (rows : List ResRow) : Fin 6 → ℚ :=
  fun i => (rows.map (fun row => row.1 i * row.2)).sum

/-- Modelled from the spec: the colored-ICP normal equations blend the
geometric and photometric systems through one coefficient
`lambdaGeometric`; the photometric weight is its complement
`1 - lambdaGeometric` (default 0.968 / 0.032). -/
def weightedSysA (lg : ℚ) (g p : List ResRow) : Fin 6 → Fin 6 → ℚ :=
  fun i j => lg * sysA g i j + (1 - lg) * sysA p i j

/-- The blended right-hand side with geometric coefficient `lg`. -/
def weightedSysB (lg : ℚ) (g p : List ResRow) : Fin 6 → ℚ :=
  fun i => lg * sysB g i + (1 - lg) * sysB p i

/-- The incremental transform read off a solution of the 6-variable
system: small-angle rotation `(x0,x1,x2)` and translation `(x3,x4,x5)`. -/
def incTransform (x : Fin 6 → ℚ) : Mat4 :=
  !![1, -(x 2), x 1, x 3;
     x 2, 1, -(x 0), x 4;
     -(x 1), x 0, 1, x 5;
     0, 0, 0, 1]

/-- Fitness as the spec defines it: accepted correspondences over source
points. -/
def fitnessOf (corr : List Corr) (src : PointCloud) : ℚ :=
  (corr.length : ℚ) / (src.points.length : ℚ)

/-- Mean squared residual over a list of rows (its square root is the
RMSE; the root is taken by the abstract `sq` parameter below). -/
def msr (rows : List ResRow) : ℚ :=
  ((rows.map fun row => row.2 ^ 2).sum) / (rows.length : ℚ)

/-- The blended mean squared residual of colored ICP. -/
def weightedMsr (lg : ℚ) (g p : List ResRow) : ℚ :=
  lg * msr g + (1 - lg) * msr p

/-- Modelled from the spec: PointToPlane estimation.  Requires target
normals (fails with `MissingAttribute`, named `MissingNormals` in §4.5);
otherwise builds the point-to-plane normal equations and solves them with
the supplied 6×6 solver `solve` (Cholesky or equivalent), reporting
fitness and RMSE (`sq` abstracts the square root). -/
def pointToPlaneEstimate
    (solve : (Fin 6 → Fin 6 → ℚ) → (Fin 6 → ℚ) → Fin 6 → ℚ) (sq : ℚ → ℚ)
    (corr : List Corr) (src tgt : PointCloud) :
    Except RegError (Mat4 × ℚ × ℚ) :=
  if tgt.normals.isEmpty then Except.error RegError.missingAttribute
  else
    Except.ok
      (incTransform (solve (sysA (corr.map (p2plRow src tgt)))
          (sysB (corr.map (p2plRow src tgt)))),
       fitnessOf corr src,
       sq (msr (corr.map (p2plRow src tgt))))

/-- Modelled from the spec: ColoredICP estimation.  Requires normals and
colours on both clouds (fails with `MissingAttribute`); blends the
geometric point-to-plane system with a photometric system whose rows come
from `photoRow` (the tangent-plane colour-interpolation Jacobian, whose
exact form the spec leaves to the publication), weighted by
`lambdaGeometric` against `1 - lambdaGeometric`. -/
def coloredICPEstimate
    (solve : (Fin 6 → Fin 6 → ℚ) → (Fin 6 → ℚ) → Fin 6 → ℚ) (sq : ℚ → ℚ)
    (photoRow : PointCloud → PointCloud → Corr → ResRow)
    (lambdaGeometric : ℚ) (corr : List Corr) (src tgt : PointCloud) :
    Except RegError (Mat4 × ℚ × ℚ) :=
  if src.normals.isEmpty || tgt.normals.isEmpty
      || src.colors.isEmpty || tgt.colors.isEmpty then
    Except.error RegError.missingAttribute
  else
    Except.ok
      (incTransform (solve
          (weightedSysA lambdaGeometric (corr.map (p2plRow src tgt))
            (corr.map (photoRow src tgt)))
          (weightedSysB lambdaGeometric (corr.map (p2plRow src tgt))
            (corr.map (photoRow src tgt)))),
       fitnessOf corr src,
       sq (weightedMsr lambdaGeometric (corr.map (p2plRow src tgt))
            (corr.map (photoRow src tgt))))

/-! ### The ICP solver state machine (library routine, modelled from the spec)

The solver below is parametric in the correspondence search `fc` (the
current cumulative transform determines this iteration's correspondences)
and in the estimator `est` (incremental transform, fitness, RMSE of a
correspondence set), exactly the two collaborators §4.6 names. -/

/-- Modelled from the spec: relative-fitness threshold, relative-RMSE
threshold and maximum iteration count (`ICPConvergenceCriteria`). -/
structure ICPCriteria where
  relativeFitness : ℚ
  relativeRmse : ℚ
  maxIteration : ℕ
deriving DecidableEq, Repr

/-- The two terminal states of the single-level loop. -/
inductive ICPTerminal
  | converged
  | maxIterationsReached
deriving DecidableEq, Repr

/-- Modelled from the spec: the registration result — final transformation,
fitness, inlier RMSE. -/
structure RegistrationResult where
  transformation : Mat4
  fitness : ℚ
  rmse : ℚ

/-- The §4.6 convergence test: it can only pass after at least one prior
iteration (`prev` present), and then requires both measurements to have
moved less than the relative thresholds. -/
def icpConverges (crit : ICPCriteria) (prev : Option (ℚ × ℚ)) (m : ℚ × ℚ) : Prop :=
  match prev with
  | none => False
  | some pm =>
    |m.1 - pm.1| < crit.relativeFitness ∧ |m.2 - pm.2| < crit.relativeRmse

instance : ∀ (crit : ICPCriteria) (prev : Option (ℚ × ℚ)) (m : ℚ × ℚ),
    Decidable (icpConverges crit prev m)
  | _, none, _ => isFalse id
  | _, some _, _ => instDecidableAnd

/-- Modelled from the spec, §4.6: one-level ICP loop.  Arguments after the
collaborators: remaining fuel (`maxIteration` minus finished iterations),
the index `i` of the iteration about to run, the cumulative transform and
the previous iteration's `(fitness, rmse)` (none before iteration 1).
Iteration `i` searches correspondences at the current transform, aborts
with `NoCorrespondences` only when `i = 0` finds none, estimates the
increment, composes it onto the cumulative transform and checks
convergence against the previous measurements before testing the
iteration budget. -/
def icpAux (fc : Mat4 → List Corr) (est : List Corr → Mat4 × ℚ × ℚ)
    (crit : ICPCriteria) :
    ℕ → ℕ → Mat4 → Option (ℚ × ℚ) →
    Except RegError (ICPTerminal × RegistrationResult)
  | 0, _, cum, prev =>
    Except.ok (ICPTerminal.maxIterationsReached,
      ⟨cum, (prev.getD (0, 0)).1, (prev.getD (0, 0)).2⟩)
  | fuel + 1, i, cum, prev =>
    if i = 0 ∧ fc cum = [] then Except.error RegError.noCorrespondences
    else if icpConverges crit prev (est (fc cum)).2 then
      Except.ok (ICPTerminal.converged,
        ⟨(est (fc cum)).1 * cum, (est (fc cum)).2.1, (est (fc cum)).2.2⟩)
    else
      icpAux fc est crit fuel (i + 1) ((est (fc cum)).1 * cum)
        (some (est (fc cum)).2)

/-- Run a single-level solve from the initial guess `init`. -/
def icpSolve (fc : Mat4 → List Corr) (est : List Corr → Mat4 × ℚ × ℚ)
    (crit : ICPCriteria) (init : Mat4) :
    Except RegError (ICPTerminal × RegistrationResult) :=
  icpAux fc est crit crit.maxIteration 0 init none

/-- The cumulative transform the loop holds before iteration `n` runs
(ignoring termination). -/
def icpTraceCum (fc : Mat4 → List Corr) (est : List Corr → Mat4 × ℚ × ℚ)
    (init : Mat4) : ℕ → Mat4
  | 0 => init
  | n + 1 => (est (fc (icpTraceCum fc est init n))).1 * icpTraceCum fc est init n

/-- The `(fitness, rmse)` pair iteration `n` computes. -/
def icpMeas (fc : Mat4 → List Corr) (est : List Corr → Mat4 × ℚ × ℚ)
    (init : Mat4) (n : ℕ) : ℚ × ℚ :=
  (est (fc (icpTraceCum fc est init n))).2

/-- The §4.6 convergence test at the end of iteration `k` (meaningful for
`k ≥ 1`): both measurements moved less than the relative thresholds since
the previous iteration. -/
def icpConvAt (fc : Mat4 → List Corr) (est : List Corr → Mat4 × ℚ × ℚ)
    (crit : ICPCriteria) (init : Mat4) (k : ℕ) : Prop :=
  |(icpMeas fc est init k).1 - (icpMeas fc est init (k - 1)).1| < crit.relativeFitness ∧
  |(icpMeas fc est init k).2 - (icpMeas fc est init (k - 1)).2| < crit.relativeRmse

instance (fc : Mat4 → List Corr) (est : List Corr → Mat4 × ℚ × ℚ)
    (crit : ICPCriteria) (init : Mat4) (k : ℕ) :
    Decidable (icpConvAt fc est crit init k) := by
  unfold icpConvAt; infer_instance

/-! ### The multi-scale pipeline of the demonstration script

This part is translated from `colored_pointcloud_registration.py` itself;
only the two library calls `estimate_normals` and
`registration_colored_icp` are abstract parameters. -/

/-- `voxel_radius = [0.04, 0.02, 0.01]` paired with
`max_iter = [50, 30, 14]`. -/
def scheduleLevels : List (ℚ × ℕ) := [(4/100, 50), (2/100, 30), (1/100, 14)]

/-- `ICPConvergenceCriteria(relative_fitness=1e-6, relative_rmse=1e-6,
max_iteration=iter)` as built inside the loop. -/
def coloredCriteria (iter : ℕ) : ICPCriteria :=
  ⟨1/1000000, 1/1000000, iter⟩

/-- One recorded call of the per-level work: the parameters the script
passes to `voxel_down_sample`, `estimate_normals` and
`registration_colored_icp` at that level. -/
structure LevelCall where
  voxelSize : ℚ
  normalRadius : ℚ
  normalMaxNn : ℕ
  maxCorrDistance : ℚ
  seed : Mat4
  criteria : ICPCriteria

/-- Accumulator of the `for scale in range(3)` loop:
`current_transformation`, the recorded calls and the per-level results. -/
structure MSState where
  current : Mat4
  calls : List LevelCall
  results : List RegistrationResult

/-- One iteration of the script's loop: downsample both clouds at the
level's radius, estimate normals with search radius `radius * 2` and
`max_nn=30`, run colored ICP at maximum correspondence distance `radius`
seeded with `current_transformation`, then store the result's
transformation as the next seed. -/
def msLevel
    (reg : PointCloud → PointCloud → ℚ → Mat4 → ICPCriteria → RegistrationResult)
    (estN : PointCloud → ℚ → ℕ → PointCloud)
    (source target : PointCloud) (st : MSState) (lvl : ℚ × ℕ) : MSState :=
  { current := (reg (estN (voxelDownSampleCore source lvl.1) (lvl.1 * 2) 30)
      (estN (voxelDownSampleCore target lvl.1) (lvl.1 * 2) 30)
      lvl.1 st.current (coloredCriteria lvl.2)).transformation,
    calls := st.calls ++
      [⟨lvl.1, lvl.1 * 2, 30, lvl.1, st.current, coloredCriteria lvl.2⟩],
    results := st.results ++
      [reg (estN (voxelDownSampleCore source lvl.1) (lvl.1 * 2) 30)
        (estN (voxelDownSampleCore target lvl.1) (lvl.1 * 2) 30)
        lvl.1 st.current (coloredCriteria lvl.2)] }

/-- The whole multi-scale segment of the script, starting from
`current_transformation = np.identity(4)`. -/
def multiScale
    (reg : PointCloud → PointCloud → ℚ → Mat4 → ICPCriteria → RegistrationResult)
    (estN : PointCloud → ℚ → ℕ → PointCloud)
    (source target : PointCloud) : MSState :=
  scheduleLevels.foldl (msLevel reg estN source target) ⟨1, [], []⟩

/-- Defaults used by positional `getD` access in theorem statements. -/
def defaultCall : LevelCall := ⟨0, 0, 30, 0, 1, ⟨0, 0, 0⟩⟩

/-- Default registration result for `getD` access. -/
def defaultResult : RegistrationResult := ⟨1, 0, 0⟩

/-! ### Concrete instances used to evaluate theorems with hypotheses -/

/-- A tiny two-point cloud carrying normals and colours. -/
def cloudW : PointCloud :=
  ⟨[⟨0, 0, 0⟩, ⟨1, 0, 0⟩], [⟨0, 0, 1⟩, ⟨0, 0, 1⟩], [⟨1, 0, 0⟩, ⟨0, 1, 0⟩]⟩

/-- A trivial 6×6 solver instance. -/
def solveW : (Fin 6 → Fin 6 → ℚ) → (Fin 6 → ℚ) → Fin 6 → ℚ := fun _ b => b

/-- A trivial square-root abstraction instance. -/
def sqW : ℚ → ℚ := id

/-- A trivial photometric-row instance. -/
def photoW : PointCloud → PointCloud → Corr → ResRow := fun _ _ _ => (fun _ => 0, 0)

/-- A correspondence search that always returns one pair. -/
def fcW : Mat4 → List Corr := fun _ => [⟨0, 0, 0⟩]

/-- An estimator returning the identity increment with fixed measurements. -/
def estW : List Corr → Mat4 × ℚ × ℚ := fun _ => (1, 1, 0)

/-- A two-iteration convergence criterion. -/
def critW : ICPCriteria := ⟨1, 1, 2⟩

/-! ### Mean-value bounds -/

theorem exists_mul_length_le_sum :
    ∀ l : List ℚ, l ≠ [] → ∃ a ∈ l, a * (l.length : ℚ) ≤ l.sum
  | [], h => absurd rfl h
  | [a], _ => ⟨a, by simp, by simp⟩
  | a :: b :: t, _ => by
    obtain ⟨m, hm, hle⟩ := exists_mul_length_le_sum (b :: t) (by simp)
    by_cases hab : a ≤ m
    · refine ⟨a, by simp, ?_⟩
      have hn : (0 : ℚ) ≤ ((b :: t).length : ℚ) := by positivity
      have h1 : a * ((b :: t).length : ℚ) ≤ m * ((b :: t).length : ℚ) :=
        mul_le_mul_of_nonneg_right hab hn
      have h2 : a * ((b :: t).length : ℚ) ≤ (b :: t).sum := le_trans h1 hle
      push_cast [List.length_cons, List.sum_cons]
      push_cast [List.length_cons, List.sum_cons] at h2
      nlinarith
    · have ham : m ≤ a := le_of_not_le hab
      refine ⟨m, List.mem_cons_of_mem a hm, ?_⟩
      push_cast [List.length_cons, List.sum_cons]
      push_cast [List.length_cons, List.sum_cons] at hle
      nlinarith

theorem exists_sum_le_mul_length :
    ∀ l : List ℚ, l ≠ [] → ∃ a ∈ l, l.sum ≤ a * (l.length : ℚ)
  | [], h => absurd rfl h
  | [a], _ => ⟨a, by simp, by simp⟩
  | a :: b :: t, _ => by
    obtain ⟨m, hm, hle⟩ := exists_sum_le_mul_length (b :: t) (by simp)
    by_cases hab : m ≤ a
    · refine ⟨a, by simp, ?_⟩
      have hn : (0 : ℚ) ≤ ((b :: t).length : ℚ) := by positivity
      have h1 : m * ((b :: t).length : ℚ) ≤ a * ((b :: t).length : ℚ) :=
        mul_le_mul_of_nonneg_right hab hn
      have h2 : (b :: t).sum ≤ a * ((b :: t).length : ℚ) := le_trans hle h1
      push_cast [List.length_cons, List.sum_cons]
      push_cast [List.length_cons, List.sum_cons] at h2
      nlinarith
    · have ham : a ≤ m := le_of_not_le hab
      refine ⟨m, List.mem_cons_of_mem a hm, ?_⟩
      push_cast [List.length_cons, List.sum_cons]
      push_cast [List.length_cons, List.sum_cons] at hle
      nlinarith

theorem exists_apply_le_mean (f : Vec3 → ℚ) (pts : List Vec3) (h : pts ≠ []) :
    ∃ p ∈ pts, f p ≤ (pts.map f).sum / (pts.length : ℚ) := by
  obtain ⟨a, ha, hle⟩ := exists_mul_length_le_sum (pts.map f) (by simpa using h)
  obtain ⟨p, hp, rfl⟩ := List.mem_map.mp ha
  refine ⟨p, hp, ?_⟩
  have hpos : (0 : ℚ) < (pts.length : ℚ) := by
    exact_mod_cast List.length_pos.mpr h
  rw [le_div_iff₀ hpos]
  simpa [List.length_map] using hle

theorem exists_mean_le_apply (f : Vec3 → ℚ) (pts : List Vec3) (h : pts ≠ []) :
    ∃ p ∈ pts, (pts.map f).sum / (pts.length : ℚ) ≤ f p := by
  obtain ⟨a, ha, hle⟩ := exists_sum_le_mul_length (pts.map f) (by simpa using h)
  obtain ⟨p, hp, rfl⟩ := List.mem_map.mp ha
  refine ⟨p, hp, ?_⟩
  have hpos : (0 : ℚ) < (pts.length : ℚ) := by
    exact_mod_cast List.length_pos.mpr h
  rw [div_le_iff₀ hpos]
  simpa [List.length_map] using hle

theorem centroid_inBoundingBox (pts : List Vec3) (h : pts ≠ []) :
    inBoundingBox (centroid pts) pts := by
  refine ⟨?_, ?_, ?_, ?_, ?_, ?_⟩
  · exact exists_apply_le_mean Vec3.x pts h
  · exact exists_mean_le_apply Vec3.x pts h
  · exact exists_apply_le_mean Vec3.y pts h
  · exact exists_mean_le_apply Vec3.y pts h
  · exact exists_apply_le_mean Vec3.z pts h
  · exact exists_mean_le_apply Vec3.z pts h

/-! ### ICP solver characterization -/

theorem icpConverges_meas (fc : Mat4 → List Corr) (est : List Corr → Mat4 × ℚ × ℚ)
    (crit : ICPCriteria) (init : Mat4) (i : ℕ) :
    icpConverges crit (some (icpMeas fc est init (i - 1)))
        (est (fc (icpTraceCum fc est init i))).2 ↔
      icpConvAt fc est crit init i :=
  Iff.rfl

theorem icpAux_pos_spec (fc : Mat4 → List Corr) (est : List Corr → Mat4 × ℚ × ℚ)
    (crit : ICPCriteria) (init : Mat4) :
    ∀ (fuel i : ℕ), 0 < i →
      ∃ st res,
        icpAux fc est crit fuel i (icpTraceCum fc est init i)
            (some (icpMeas fc est init (i - 1))) = Except.ok (st, res) ∧
        (st = ICPTerminal.converged ↔
          ∃ k, i ≤ k ∧ k < i + fuel ∧ icpConvAt fc est crit init k)
  | 0, i, _ => by
    refine ⟨ICPTerminal.maxIterationsReached, _, rfl, ?_⟩
    constructor
    · intro h; simp at h
    · rintro ⟨k, hk1, hk2, _⟩; omega
  | fuel + 1, i, hi => by
    have hne : ¬ (i = 0 ∧ fc (icpTraceCum fc est init i) = []) := by
      rintro ⟨h0, _⟩; omega
    rw [icpAux, if_neg hne]
    by_cases hc : icpConverges crit (some (icpMeas fc est init (i - 1)))
        (est (fc (icpTraceCum fc est init i))).2
    · rw [if_pos hc]
      refine ⟨ICPTerminal.converged, _, rfl, ?_⟩
      exact iff_of_true rfl
        ⟨i, le_refl i, by omega, (icpConverges_meas fc est crit init i).mp hc⟩
    · rw [if_neg hc]
      have key := icpAux_pos_spec fc est crit init fuel (i + 1) (by omega)
      have hcum : icpTraceCum fc est init (i + 1)
          = (est (fc (icpTraceCum fc est init i))).1 * icpTraceCum fc est init i := rfl
      have hmeas : icpMeas fc est init (i + 1 - 1)
          = (est (fc (icpTraceCum fc est init i))).2 := rfl
      rw [hcum, hmeas] at key
      obtain ⟨st, res, heq, hiff⟩ := key
      refine ⟨st, res, heq, ?_⟩
      rw [hiff]
      constructor
      · rintro ⟨k, hk1, hk2, hk3⟩
        exact ⟨k, by omega, by omega, hk3⟩
      · rintro ⟨k, hk1, hk2, hk3⟩
        rcases eq_or_lt_of_le hk1 with heqk | hltk
        · exact absurd ((icpConverges_meas fc est crit init i).mpr (heqk ▸ hk3)) hc
        · exact ⟨k, by omega, by omega, hk3⟩

theorem terminal_dichotomy (st : ICPTerminal) (P : Prop)
    (h : st = ICPTerminal.converged ↔ P) :
    st = ICPTerminal.maxIterationsReached ↔ ¬ P := by
  cases st
  · refine iff_of_false ?_ ?_
    · intro hx; simp at hx
    · intro hnp; exact hnp (h.mp rfl)
  · refine iff_of_true rfl ?_
    intro hp
    have := h.mpr hp
    simp at this

/-- **C3**: a single-level solve whose iteration 0 finds correspondences
always returns a `RegistrationResult` (no error); its state is `Converged`
exactly when some iteration `k ≥ 1` before the iteration budget satisfied
both relative-change tests against iteration `k - 1`, and otherwise it is
`MaxIterationsReached` — which is an `Except.ok` value, not an error. -/
theorem icp_terminal_states (fc : Mat4 → List Corr) (est : List Corr → Mat4 × ℚ × ℚ)
    (crit : ICPCriteria) (init : Mat4) (h0 : fc init ≠ []) :
    ∃ st res, icpSolve fc est crit init = Except.ok (st, res) ∧
      (st = ICPTerminal.converged ↔
        ∃ k, 1 ≤ k ∧ k < crit.maxIteration ∧ icpConvAt fc est crit init k) ∧
      (st = ICPTerminal.maxIterationsReached ↔
        ¬ ∃ k, 1 ≤ k ∧ k < crit.maxIteration ∧ icpConvAt fc est crit init k) := by
  obtain ⟨rf, rr, M⟩ := crit
  unfold icpSolve
  cases M with
  | zero =>
    refine ⟨ICPTerminal.maxIterationsReached, _, rfl, ?_⟩
    have hP : ¬ ∃ k, 1 ≤ k ∧ k < (ICPCriteria.mk rf rr 0).maxIteration ∧
        icpConvAt fc est ⟨rf, rr, 0⟩ init k := by
      rintro ⟨k, hk1, hk2, _⟩
      simp only [ICPCriteria.maxIteration] at hk2
      omega
    refine ⟨iff_of_false (by simp) hP, iff_of_true rfl hP⟩
  | succ M =>
    have hne : ¬ ((0 : ℕ) = 0 ∧ fc init = []) := fun h => h0 h.2
    rw [icpAux, if_neg hne,
      if_neg (fun h => h : ¬ icpConverges ⟨rf, rr, M + 1⟩ none (est (fc init)).2)]
    have key := icpAux_pos_spec fc est ⟨rf, rr, M + 1⟩ init M 1 one_pos
    have hcum : icpTraceCum fc est init 1 = (est (fc init)).1 * init := rfl
    have hmeas : icpMeas fc est init (1 - 1) = (est (fc init)).2 := rfl
    rw [hcum, hmeas] at key
    obtain ⟨st, res, heq, hiff⟩ := key
    have hiff2 : st = ICPTerminal.converged ↔
        ∃ k, 1 ≤ k ∧ k < (ICPCriteria.mk rf rr (M + 1)).maxIteration ∧
          icpConvAt fc est ⟨rf, rr, M + 1⟩ init k := by
      rw [hiff]
      constructor
      · rintro ⟨k, hk1, hk2, hk3⟩
        exact ⟨k, hk1, by simpa [ICPCriteria.maxIteration] using by omega, hk3⟩
      · rintro ⟨k, hk1, hk2, hk3⟩
        simp only [ICPCriteria.maxIteration] at hk2
        exact ⟨k, hk1, by omega, hk3⟩
    exact ⟨st, res, heq, hiff2, terminal_dichotomy st _ hiff2⟩

/-- Closed-form evaluation of C3 at a concrete solver configuration. -/
theorem icp_terminal_states_witness :
    fcW 1 ≠ [] ∧
    (∃ st res, icpSolve fcW estW critW 1 = Except.ok (st, res) ∧
      (st = ICPTerminal.converged ↔
        ∃ k, 1 ≤ k ∧ k < critW.maxIteration ∧ icpConvAt fcW estW critW 1 k) ∧
      (st = ICPTerminal.maxIterationsReached ↔
        ¬ ∃ k, 1 ≤ k ∧ k < critW.maxIteration ∧ icpConvAt fcW estW critW 1 k)) :=
  ⟨by simp [fcW], icp_terminal_states fcW estW critW 1 (by simp [fcW])⟩

/-- **C2**: with a positive iteration budget, a single-level solve raises
`NoCorrespondences` precisely when the correspondence search at the
initial transform (iteration 0) is empty; as soon as iteration 0 finds at
least one correspondence the solve returns a result — for every possible
behaviour of the search at later iterations, including iterations that
find no correspondence at all, so per-point misses never abort the loop. -/
theorem icp_noCorrespondences_iff (fc : Mat4 → List Corr)
    (est : List Corr → Mat4 × ℚ × ℚ) (crit : ICPCriteria) (init : Mat4)
    (hM : 1 ≤ crit.maxIteration) :
    (icpSolve fc est crit init = Except.error RegError.noCorrespondences ↔
      fc init = []) ∧
    (fc init ≠ [] → ∃ st res, icpSolve fc est crit init = Except.ok (st, res)) := by
  obtain ⟨rf, rr, M⟩ := crit
  simp only [ICPCriteria.maxIteration] at hM
  unfold icpSolve
  cases M with
  | zero => omega
  | succ M =>
    by_cases h0 : fc init = []
    · refine ⟨?_, fun h => absurd h0 h⟩
      rw [icpAux, if_pos ⟨rfl, h0⟩]
      exact iff_of_true rfl h0
    · have hne : ¬ ((0 : ℕ) = 0 ∧ fc init = []) := fun h => h0 h.2
      rw [icpAux, if_neg hne,
        if_neg (fun h => h : ¬ icpConverges ⟨rf, rr, M + 1⟩ none (est (fc init)).2)]
      have key := icpAux_pos_spec fc est ⟨rf, rr, M + 1⟩ init M 1 one_pos
      have hcum : icpTraceCum fc est init 1 = (est (fc init)).1 * init := rfl
      have hmeas : icpMeas fc est init (1 - 1) = (est (fc init)).2 := rfl
      rw [hcum, hmeas] at key
      obtain ⟨st, res, heq, _⟩ := key
      refine ⟨iff_of_false (by simp [heq]) h0, fun _ => ⟨st, res, heq⟩⟩

/-- Closed-form evaluation of C2 at a concrete solver configuration. -/
theorem icp_noCorrespondences_iff_witness :
    1 ≤ critW.maxIteration ∧
    ((icpSolve fcW estW critW 1 = Except.error RegError.noCorrespondences ↔
        fcW 1 = []) ∧
      (fcW 1 ≠ [] → ∃ st res, icpSolve fcW estW critW 1 = Except.ok (st, res))) :=
  ⟨by decide, icp_noCorrespondences_iff fcW estW critW 1 (by decide)⟩

/-! ### Estimator properties -/

/-- **C1**: on clouds carrying normals and colours, the ColoredICP
estimator with its photometric weight coefficient set to zero
(`lambdaGeometric = 1`, so the photometric term weighs `1 - 1 = 0`)
produces exactly the incremental transform of the PointToPlane estimator
on the same correspondences — for every 6×6 solver, every square-root
abstraction and every photometric residual model. -/
theorem coloredICP_zero_photometric_eq_pointToPlane
    (solve : (Fin 6 → Fin 6 → ℚ) → (Fin 6 → ℚ) → Fin 6 → ℚ) (sq : ℚ → ℚ)
    (photoRow : PointCloud → PointCloud → Corr → ResRow)
    (corr : List Corr) (src tgt : PointCloud)
    (hsn : src.normals.isEmpty = false) (htn : tgt.normals.isEmpty = false)
    (hsc : src.colors.isEmpty = false) (htc : tgt.colors.isEmpty = false) :
    ∃ T fit r1 r2,
      coloredICPEstimate solve sq photoRow 1 corr src tgt = Except.ok (T, fit, r1) ∧
      pointToPlaneEstimate solve sq corr src tgt = Except.ok (T, fit, r2) := by
  have hA : weightedSysA 1 (corr.map (p2plRow src tgt)) (corr.map (photoRow src tgt))
      = sysA (corr.map (p2plRow src tgt)) := by
    funext i j; unfold weightedSysA; ring
  have hB : weightedSysB 1 (corr.map (p2plRow src tgt)) (corr.map (photoRow src tgt))
      = sysB (corr.map (p2plRow src tgt)) := by
    funext i; unfold weightedSysB; ring
  refine ⟨incTransform (solve (sysA (corr.map (p2plRow src tgt)))
      (sysB (corr.map (p2plRow src tgt)))),
    fitnessOf corr src,
    sq (weightedMsr 1 (corr.map (p2plRow src tgt)) (corr.map (photoRow src tgt))),
    sq (msr (corr.map (p2plRow src tgt))), ?_, ?_⟩
  · unfold coloredICPEstimate
    rw [hsn, htn, hsc, htc, hA, hB]
    simp
  · unfold pointToPlaneEstimate
    rw [htn]
    simp

/-- Closed-form evaluation of C1 at a concrete estimator configuration. -/
theorem coloredICP_zero_photometric_eq_pointToPlane_witness :
    cloudW.normals.isEmpty = false ∧ cloudW.colors.isEmpty = false ∧
    (∃ T fit r1 r2,
      coloredICPEstimate solveW sqW photoW 1 [⟨0, 1, 0⟩] cloudW cloudW
        = Except.ok (T, fit, r1) ∧
      pointToPlaneEstimate solveW sqW [⟨0, 1, 0⟩] cloudW cloudW
        = Except.ok (T, fit, r2)) :=
  ⟨rfl, rfl,
    coloredICP_zero_photometric_eq_pointToPlane solveW sqW photoW
      [⟨0, 1, 0⟩] cloudW cloudW rfl rfl rfl rfl⟩

/-- **C4**: PointToPlane estimation on a target cloud without normals
fails with `MissingAttribute` (the failure §4.5 names `MissingNormals`)
straight from its attribute guard, before building any normal equations;
with target normals present it returns an incremental transform. -/
theorem pointToPlane_missing_normals
    (solve : (Fin 6 → Fin 6 → ℚ) → (Fin 6 → ℚ) → Fin 6 → ℚ) (sq : ℚ → ℚ)
    (corr : List Corr) (src tgt : PointCloud) :
    if tgt.normals.isEmpty then
      pointToPlaneEstimate solve sq corr src tgt
        = Except.error RegError.missingAttribute
    else
      ∃ T fit r, pointToPlaneEstimate solve sq corr src tgt
        = Except.ok (T, fit, r) := by
  unfold pointToPlaneEstimate
  by_cases h : tgt.normals.isEmpty
  · rw [if_pos h, if_pos h]
  · rw [if_neg h, if_neg h]
    exact ⟨_, _, _, rfl⟩

/-! ### Voxel downsampling properties -/

/-- **C5**: for positive voxel size, downsampling succeeds, never grows the
cloud, and every output point is the arithmetic mean of the points of one
non-empty voxel cube drawn from the input — hence lies within the
axis-aligned bounding box of those source points. -/
theorem voxelDownSample_size_mean_bbox (c : PointCloud) (v : ℚ) (hv : 0 < v) :
    ∃ out, voxelDownSample c v = Except.ok out ∧
      out.points.length ≤ c.points.length ∧
      ∀ q ∈ out.points, ∃ b : ℤ × ℤ × ℤ,
        voxelMembers v c.points b ≠ [] ∧
        (∀ p ∈ voxelMembers v c.points b, p ∈ c.points ∧ voxelIdx v p = b) ∧
        q = centroid (voxelMembers v c.points b) ∧
        inBoundingBox q (voxelMembers v c.points b) := by
  refine ⟨voxelDownSampleCore c v, ?_, ?_, ?_⟩
  · unfold voxelDownSample
    rw [if_neg (not_le.mpr hv)]
  · show ((voxelBins v c.points).map _).length ≤ c.points.length
    rw [List.length_map]
    unfold voxelBins
    simpa using (List.dedup_sublist (c.points.map (voxelIdx v))).length_le
  · intro q hq
    rw [show (voxelDownSampleCore c v).points
        = (voxelBins v c.points).map (fun b => centroid (voxelMembers v c.points b))
        from rfl] at hq
    obtain ⟨b, hb, rfl⟩ := List.mem_map.mp hq
    have hbmem : b ∈ c.points.map (voxelIdx v) :=
      (List.dedup_sublist (c.points.map (voxelIdx v))).subset hb
    obtain ⟨p, hp, hpb⟩ := List.mem_map.mp hbmem
    have hpmem : p ∈ voxelMembers v c.points b := by
      unfold voxelMembers
      rw [List.mem_filter]
      exact ⟨hp, by simp [hpb]⟩
    have hne : voxelMembers v c.points b ≠ [] := List.ne_nil_of_mem hpmem
    refine ⟨b, hne, ?_, rfl, centroid_inBoundingBox _ hne⟩
    intro p2 hp2
    unfold voxelMembers at hp2
    rw [List.mem_filter] at hp2
    exact ⟨hp2.1, by simpa using hp2.2⟩

/-- Closed-form evaluation of C5 at a concrete cloud and voxel size. -/
theorem voxelDownSample_size_mean_bbox_witness :
    (0 : ℚ) < 1 ∧
    (∃ out, voxelDownSample cloudW 1 = Except.ok out ∧
      out.points.length ≤ cloudW.points.length ∧
      ∀ q ∈ out.points, ∃ b : ℤ × ℤ × ℤ,
        voxelMembers 1 cloudW.points b ≠ [] ∧
        (∀ p ∈ voxelMembers 1 cloudW.points b, p ∈ cloudW.points ∧ voxelIdx 1 p = b) ∧
        q = centroid (voxelMembers 1 cloudW.points b) ∧
        inBoundingBox q (voxelMembers 1 cloudW.points b)) :=
  ⟨by norm_num, voxelDownSample_size_mean_bbox cloudW 1 (by norm_num)⟩

/-- **C6**: called through a reference into a heap of clouds,
`voxel_down_sample` reports `InvalidArgument` exactly when the voxel size
is non-positive, and in every case — success or failure — all
pre-existing heap cells, the input cloud's included, are untouched (the
result is a fresh allocation). -/
theorem voxelDownSample_invalidArgument_frame (hp : List PointCloud) (r : ℕ)
    (v : ℚ) (_hr : r < hp.length) :
    ((voxelDownSampleProc hp r v).2 = Except.error RegError.invalidArgument ↔
      v ≤ 0) ∧
    (∀ i, i < hp.length →
      (voxelDownSampleProc hp r v).1.getD i ⟨[], [], []⟩
        = hp.getD i ⟨[], [], []⟩) := by
  unfold voxelDownSampleProc voxelDownSample
  by_cases hv : v ≤ 0
  · rw [if_pos hv]
    exact ⟨iff_of_true rfl hv, fun i _ => rfl⟩
  · rw [if_neg hv]
    refine ⟨iff_of_false (by simp) hv, fun i hi => ?_⟩
    exact List.getD_append _ _ _ _ hi

/-- Closed-form evaluation of C6 at a concrete heap. -/
theorem voxelDownSample_invalidArgument_frame_witness :
    (0 : ℕ) < [cloudW].length ∧
    (((voxelDownSampleProc [cloudW] 0 (1/2)).2
        = Except.error RegError.invalidArgument ↔ (1/2 : ℚ) ≤ 0) ∧
      (∀ i, i < [cloudW].length →
        (voxelDownSampleProc [cloudW] 0 (1/2)).1.getD i ⟨[], [], []⟩
          = [cloudW].getD i ⟨[], [], []⟩)) :=
  ⟨by norm_num,
    voxelDownSample_invalidArgument_frame [cloudW] 0 (1/2) (by norm_num)⟩

/-! ### Frame effect of the script's drawing helper -/

/-- **C8**: `draw_registration_result_original_color` leaves the caller's
source and target clouds unchanged — the transformation lands only on the
freshly deep-copied source object. -/
theorem draw_preserves_originals (hp : List PointCloud) (src tgt : ℕ) (T : Mat4)
    (hs : src < hp.length) (ht : tgt < hp.length) :
    (drawRegistrationResultOriginalColor hp src tgt T).1.getD src ⟨[], [], []⟩
        = hp.getD src ⟨[], [], []⟩ ∧
    (drawRegistrationResultOriginalColor hp src tgt T).1.getD tgt ⟨[], [], []⟩
        = hp.getD tgt ⟨[], [], []⟩ ∧
    (drawRegistrationResultOriginalColor hp src tgt T).1.getD hp.length ⟨[], [], []⟩
        = transformCloud (hp.getD src ⟨[], [], []⟩) T := by
  unfold drawRegistrationResultOriginalColor transformProc deepcopyProc
  have hcopy : (hp ++ [hp.getD src ⟨[], [], []⟩]).getD hp.length ⟨[], [], []⟩
      = hp.getD src ⟨[], [], []⟩ := by
    rw [List.getD_append_right _ _ _ _ (le_refl _)]
    simp
  have hset : ∀ (l : List PointCloud) (j : ℕ) (b : PointCloud), j < l.length →
      ∀ d, ((l ++ [hp.getD src ⟨[], [], []⟩]).set l.length b).getD j d
        = l.getD j d := by
    intro l j b hj d
    rw [List.getD_eq_getElem?_getD, List.getElem?_set_ne (by omega),
      ← List.getD_eq_getElem?_getD]
    exact List.getD_append _ _ _ _ hj
  have hself : ∀ (b : PointCloud) (d : PointCloud),
      ((hp ++ [hp.getD src ⟨[], [], []⟩]).set hp.length b).getD hp.length d = b := by
    intro b d
    rw [List.getD_eq_getElem?_getD, List.getElem?_set_self (by simp),
      Option.getD_some]
  exact ⟨hset hp src _ hs _, hset hp tgt _ ht _, by rw [hself, hcopy]⟩

/-- Closed-form evaluation of C8 at a concrete heap. -/
theorem draw_preserves_originals_witness :
    (0 : ℕ) < [cloudW, cloudW].length ∧ (1 : ℕ) < [cloudW, cloudW].length ∧
    ((drawRegistrationResultOriginalColor [cloudW, cloudW] 0 1 1).1.getD 0 ⟨[], [], []⟩
        = [cloudW, cloudW].getD 0 ⟨[], [], []⟩ ∧
      (drawRegistrationResultOriginalColor [cloudW, cloudW] 0 1 1).1.getD 1 ⟨[], [], []⟩
        = [cloudW, cloudW].getD 1 ⟨[], [], []⟩ ∧
      (drawRegistrationResultOriginalColor [cloudW, cloudW] 0 1 1).1.getD
          [cloudW, cloudW].length ⟨[], [], []⟩
        = transformCloud ([cloudW, cloudW].getD 0 ⟨[], [], []⟩) 1) :=
  ⟨by norm_num, by norm_num,
    draw_preserves_originals [cloudW, cloudW] 0 1 1 (by norm_num) (by norm_num)⟩

/-! ### The multi-scale loop of the script -/

/-- **C7**: the script's multi-scale loop runs three levels; the first
colored-ICP solve is seeded with the identity transform, and each later
solve is seeded with exactly the transformation of the previous level's
result — for every behaviour of the library's registration and
normal-estimation routines. -/
theorem multiScale_seeding
    (reg : PointCloud → PointCloud → ℚ → Mat4 → ICPCriteria → RegistrationResult)
    (estN : PointCloud → ℚ → ℕ → PointCloud) (source target : PointCloud) :
    (multiScale reg estN source target).calls.length = 3 ∧
    ((multiScale reg estN source target).calls.getD 0 defaultCall).seed = 1 ∧
    ((multiScale reg estN source target).calls.getD 1 defaultCall).seed
      = ((multiScale reg estN source target).results.getD 0 defaultResult).transformation ∧
    ((multiScale reg estN source target).calls.getD 2 defaultCall).seed
      = ((multiScale reg estN source target).results.getD 1 defaultResult).transformation :=
  ⟨rfl, rfl, rfl, rfl⟩

/-- **C9**: at every level the loop passes the level's voxel size as the
maximum correspondence distance and estimates normals with search radius
`voxelSize * 2` and at most 30 neighbours; the three voxel sizes are
0.04, 0.02, 0.01. -/
theorem multiScale_level_parameters
    (reg : PointCloud → PointCloud → ℚ → Mat4 → ICPCriteria → RegistrationResult)
    (estN : PointCloud → ℚ → ℕ → PointCloud) (source target : PointCloud) :
    (multiScale reg estN source target).calls.map LevelCall.voxelSize
      = [4/100, 2/100, 1/100] ∧
    ∀ i : ℕ,
      ((multiScale reg estN source target).calls.getD i defaultCall).maxCorrDistance
        = ((multiScale reg estN source target).calls.getD i defaultCall).voxelSize ∧
      ((multiScale reg estN source target).calls.getD i defaultCall).normalRadius
        = ((multiScale reg estN source target).calls.getD i defaultCall).voxelSize * 2 ∧
      ((multiScale reg estN source target).calls.getD i defaultCall).normalMaxNn = 30 := by
  refine ⟨rfl, fun i => ?_⟩
  match i with
  | 0 => exact ⟨rfl, rfl, rfl⟩
  | 1 => exact ⟨rfl, rfl, rfl⟩
  | 2 => exact ⟨rfl, rfl, rfl⟩
  | n + 3 => exact ⟨rfl, by norm_num [multiScale, scheduleLevels, msLevel, defaultCall], rfl⟩

/-- **C10**: the final reported result of the multi-scale pipeline is
exactly the third (voxel size 0.01) level's colored-ICP output computed on
the downsampled clouds — no step re-evaluates its fitness or RMSE against
the full-resolution clouds — and the only use of the original clouds
afterwards is the drawing call, which applies that result's transformation
to a deep copy and leaves the originals untouched. -/
theorem multiScale_final_result
    (reg : PointCloud → PointCloud → ℚ → Mat4 → ICPCriteria → RegistrationResult)
    (estN : PointCloud → ℚ → ℕ → PointCloud) (source target : PointCloud) :
    (multiScale reg estN source target).results.length = 3 ∧
    (multiScale reg estN source target).results.getD 2 defaultResult
      = reg (estN (voxelDownSampleCore source (1/100)) ((1/100) * 2) 30)
          (estN (voxelDownSampleCore target (1/100)) ((1/100) * 2) 30)
          (1/100)
          ((multiScale reg estN source target).results.getD 1 defaultResult).transformation
          (coloredCriteria 14) ∧
    (drawRegistrationResultOriginalColor [source, target] 0 1
        ((multiScale reg estN source target).results.getD 2
          defaultResult).transformation).1.getD 0 ⟨[], [], []⟩ = source ∧
    (drawRegistrationResultOriginalColor [source, target] 0 1
        ((multiScale reg estN source target).results.getD 2
          defaultResult).transformation).1.getD 1 ⟨[], [], []⟩ = target :=
  ⟨rfl, rfl, rfl, rfl⟩

end Cupoch
